import Mathlib

/-!
# Verification of the context-detection and content-resolution engine
# of The_Ultimate_Overlay

Shallow embedding of the decision logic of
`The_Ultimate_Overlay_App/overlay/window.py` (context classification,
content resolution, favorites toggling, selection monitoring),
`The_Ultimate_Overlay_App/ai/completion.py` (cooldown and request queue),
and `The_Ultimate_Overlay_App/ai/model_manager.py` (model lifecycle).

Strings are modelled with Lean `String`; character-level operations are
written over `String.data` so that all definitions compute in the kernel.
Python truthiness of strings/lists is modelled by emptiness tests,
`str.lower()` by its ASCII fragment (all strings appearing in the
relevant tables and titles are ASCII), and `str.strip()` by removal of
leading/trailing ASCII whitespace.
-/

namespace UltimateOverlay

/-- ASCII fragment of Python `str.lower` on a single character
(the only case exercised by the tables of `window.py`). -/
def pyLowerChar (c : Char) : Char :=
  if c = 'A' then 'a' else if c = 'B' then 'b' else if c = 'C' then 'c'
  else if c = 'D' then 'd' else if c = 'E' then 'e' else if c = 'F' then 'f'
  else if c = 'G' then 'g' else if c = 'H' then 'h' else if c = 'I' then 'i'
  else if c = 'J' then 'j' else if c = 'K' then 'k' else if c = 'L' then 'l'
  else if c = 'M' then 'm' else if c = 'N' then 'n' else if c = 'O' then 'o'
  else if c = 'P' then 'p' else if c = 'Q' then 'q' else if c = 'R' then 'r'
  else if c = 'S' then 's' else if c = 'T' then 't' else if c = 'U' then 'u'
  else if c = 'V' then 'v' else if c = 'W' then 'w' else if c = 'X' then 'x'
  else if c = 'Y' then 'y' else if c = 'Z' then 'z' else c

/-- Python `str.lower()` (ASCII fragment). -/
def pyLower (s : String) : String := ⟨s.data.map pyLowerChar⟩

/-- The whitespace characters stripped by Python `str.strip()`
(ASCII fragment). -/
def pyIsSpace (c : Char) : Bool :=
  c = ' ' || c = '\t' || c = '\n' || c = '\r' || c = '\x0b' || c = '\x0c'

/-- Python `str.strip()` on a character list: drop leading and trailing
whitespace. -/
def pyStripL (l : List Char) : List Char :=
  ((l.dropWhile pyIsSpace).reverse.dropWhile pyIsSpace).reverse

/-- Python `str.strip()`. -/
def pyStrip (s : String) : String := ⟨pyStripL s.data⟩

/-- Python `needle in haystack` on character lists: the needle occurs
contiguously in the haystack (the empty needle occurs everywhere). -/
def pyInL (needle : List Char) : List Char → Bool
  | [] => needle.isEmpty
  | c :: rest => needle.isPrefixOf (c :: rest) || pyInL needle rest

/-- Python `needle in haystack` on strings. -/
def pyIn (needle hay : String) : Bool := pyInL needle.data hay.data

/-- Python `s.startswith(pre)`. -/
def pyStartsWith (s pre : String) : Bool := pre.data.isPrefixOf s.data

/-- Python truthiness of an optional string (`if x:` with `x` a
string-or-None): `None` and the empty string are falsy. -/
def pyTruthyOpt : Option String → Bool
  | none => false
  | some s => s != ""

/-- First-match association-table lookup (Python `d[k]` on the dicts of
`window.py`, whose keys are unique). -/
def tblLookup (k : String) : List (String × β) → Option β
  | [] => none
  | p :: rest => if p.1 = k then some p.2 else tblLookup k rest

/-! ## Context classification (`window.py`, `detect_language_by_extension`
and `detect_app_by_name`) -/

/-- A character matched by the class `[a-z0-9]` of the extension regex. -/
def isExtChar (c : Char) : Bool :=
  (('a' ≤ c && c ≤ 'z') || ('0' ≤ c && c ≤ '9'))

/-- All matches of the regex `\.[a-z0-9]+` in a character list, in order,
as produced by `re.finditer`: leftmost, with a greedy `+` (maximal run of
`[a-z0-9]` after each dot).  `re.finditer` resumes scanning after each
match; recursing into the matched run instead is equivalent, because a
run contains no `'.'` and hence no further match can start inside it,
and it keeps the recursion structural. -/
def extFinditer : List Char → List (List Char)
  | [] => []
  | c :: rest =>
    if c = '.' then
      let run := rest.takeWhile isExtChar
      if run.isEmpty then extFinditer rest
      else ('.' :: run) :: extFinditer rest
    else extFinditer rest

/-- The `ext_to_lang` table of `detect_language_by_extension`
(`window.py` lines 557-562), in source order. -/
def ext_to_lang : List (String × String) :=
  [(".py", "Python"), (".sql", "SQL"), (".r", "R"), (".ttl", "Ttl"),
   (".sas", "SAS"), (".ipynb", "Python"),
   (".js", "JavaScript"), (".ts", "TypeScript"), (".c", "C"),
   (".cpp", "C++"), (".h", "C/C++ Header"), (".hpp", "C++ Header"),
   (".java", "Java"), (".html", "HTML"), (".htm", "HTML"), (".css", "CSS"),
   (".md", "Markdown"), (".json", "JSON"),
   (".xml", "XML"), (".yml", "YAML"), (".yaml", "YAML"), (".sh", "Shell"),
   (".bat", "Batch"), (".ps1", "PowerShell")]

/-- `MovableOverlayWidget.detect_language_by_extension` (`window.py`
lines 556-570): lowercase the title, find all matches of `\.[a-z0-9]+`,
walk them from the right and return the table entry of the first match
found in `ext_to_lang`; `None` when the title is falsy or no match is in
the table. -/
def detect_language_by_extension (window_title : Option String) : Option String :=
  match window_title with
  | none => none
  | some t =>
    if t = "" then none
    else
      (extFinditer (pyLower t).data).reverse.findSome?
        (fun m => tblLookup (String.mk m) ext_to_lang)

/-- The claim's reading of extension detection: the table entry of the
rightmost regex match whose form is in `ext_to_lang`; none if no match
qualifies. -/
def rightmostTableExt (t : String) : Option String :=
  (((extFinditer (pyLower t).data).filter
      (fun m => (tblLookup (String.mk m) ext_to_lang).isSome)).getLast?).bind
    (fun m => tblLookup (String.mk m) ext_to_lang)

/-- The `app_to_lang` table of `detect_app_by_name` (`window.py`
lines 573-582), in source order. -/
def app_to_lang : List (String × String) :=
  [("rstudio", "R"), ("sql server management studio", "SQL"),
   ("jupyter", "Python"), ("spyder", "Python"),
   ("pycharm", "Python"), ("vscode", "Python"),
   ("visual studio code", "Python"), ("sublime text", "Python"),
   ("notepad++", "Text"), ("notepad", "Text"), ("atom", "JavaScript"),
   ("webstorm", "JavaScript"), ("intellij", "Java"),
   ("eclipse", "Java"), ("visual studio", "C++"),
   ("android studio", "Java"), ("markdown", "Markdown"),
   ("chrome", "Web"), ("firefox", "Web"), ("edge", "Web"),
   ("internet explorer", "Web"), ("excel", "Excel"),
   ("word", "Word"), ("powerpoint", "PowerPoint"), ("outlook", "Outlook"),
   ("onenote", "OneNote"), ("teams", "Teams"),
   ("windows terminal", "Shell"), ("cmd.exe", "Shell"),
   ("powershell", "PowerShell"),
   ("cursor", "Python"), ("steam", "Steam")]

/-- `MovableOverlayWidget.detect_app_by_name` (`window.py` lines
572-588): lowercase the title and return the first table key (in source
order) that is a substring of it; the key, not the mapped value, is
returned. -/
def detect_app_by_name (window_title : Option String) : Option String :=
  match window_title with
  | none => none
  | some t =>
    if t = "" then none
    else (app_to_lang.find? (fun p => pyIn p.1 (pyLower t))).map (·.1)

/-! ## Data model: entries, favorites, display rows (`window.py`) -/

/-- A knowledge entry of `knowledge.json`
(`{title, description, code?, summary}`). -/
structure KnowledgeEntry where
  title : String
  description : String
  code : Option String
  summary : String
deriving DecidableEq

/-- A shortcut entry of `shortcuts.json`
(`{shortcut, description, code?, summary}`). -/
structure ShortcutEntry where
  shortcut : String
  description : String
  code : Option String
  summary : String
deriving DecidableEq

/-- The favorites store (`favorites.json`):
`{"knowledge": [...], "shortcuts": [...]}`. -/
structure Favorites where
  knowledge : List String
  shortcuts : List String
deriving DecidableEq

/-- One rendered content row (`OverlayRowWidget`): the bold name label
(title or shortcut), the summary label, and the pin-button state. -/
structure DisplayRow where
  name : String
  summary : String
  isPinned : Bool
deriving DecidableEq

/-- One widget added to `content_layout` by `update_overlay`: either a
content row or the app home page built by `create_app_home`
(identified by the window title it is called with). -/
inductive Widget where
  | row (r : DisplayRow)
  | home (title : String)
deriving DecidableEq

/-- The rows among the widgets of the content layout. -/
def widgetRows (ws : List Widget) : List DisplayRow :=
  ws.filterMap fun w => match w with | .row r => some r | .home _ => none

/-- The synthetic entry of the shortcuts branch
(`"No shortcuts found for this app."`, `window.py` line 896/1009). -/
def noShortcutsRow : DisplayRow := ⟨"No shortcuts found for this app.", "", false⟩

/-- The synthetic entry of the knowledge branch
(`"No basic knowledge found for this language or app."`, line 1057). -/
def noKnowledgeRow : DisplayRow :=
  ⟨"No basic knowledge found for this language or app.", "", false⟩

/-! ## Search filtering and pinned-first ordering (`window.py`,
`update_overlay`) -/

/-- The per-entry search filter of the knowledge branches (line 920/1039):
an entry is kept when the search text is falsy, or the lowercased title
starts with it, or the summary is truthy and its lowercase starts with
it.  `search` is the already stripped-and-lowercased search text. -/
def knowledgePass (search : String) (k : KnowledgeEntry) : Bool :=
  search == "" || pyStartsWith (pyLower k.title) search
    || (k.summary != "" && pyStartsWith (pyLower k.summary) search)

/-- The per-entry search filter of the shortcuts branch (line 878/991). -/
def shortcutPass (search : String) (s : ShortcutEntry) : Bool :=
  search == "" || pyStartsWith (pyLower s.shortcut) search
    || (s.summary != "" && pyStartsWith (pyLower s.summary) search)

/-- Knowledge rows: partition into pinned (title in favorites) and
unpinned preserving order, concatenate pinned-first, filter by search,
and build one row per surviving entry (lines 905-936/1024-1055). -/
def knowledgeRows (favs : List String) (search : String)
    (es : List KnowledgeEntry) : List DisplayRow :=
  (((es.filter fun k => favs.contains k.title)
      ++ es.filter fun k => !favs.contains k.title).filter
    (knowledgePass search)).map
    fun k => ⟨k.title, k.summary, favs.contains k.title⟩

/-- Shortcut rows, same pipeline keyed by the shortcut string
(lines 863-894/976-1007). -/
def shortcutRows (favs : List String) (search : String)
    (es : List ShortcutEntry) : List DisplayRow :=
  (((es.filter fun s => favs.contains s.shortcut)
      ++ es.filter fun s => !favs.contains s.shortcut).filter
    (shortcutPass search)).map
    fun s => ⟨s.shortcut, s.summary, favs.contains s.shortcut⟩

/-! ## Stores and branch logic of `update_overlay` -/

/-- `get_shortcuts_for_app` (`context/shortcuts.py` lines 18-24): scan
the shortcuts table in order and return the entries of the first key
whose lowercase is a substring of the lowercased argument (the argument
is `""` when falsy); `[]` when no key matches.  `update_overlay` passes
the *detected app name* as the argument. -/
def get_shortcuts_for_app (table : List (String × List ShortcutEntry))
    (window_title : Option String) : List ShortcutEntry :=
  let wl := pyLower (window_title.getD "")
  match table.find? (fun p => pyIn (pyLower p.1) wl) with
  | some p => p.2
  | none => []

/-- The fallback scan of the knowledge branch (lines 1017-1022): first
knowledge key (in table order) whose lowercase is a substring of the
lowercased window title; `[]` when none matches. -/
def knowledgeScan (table : List (String × List KnowledgeEntry))
    (window_title : Option String) : List KnowledgeEntry :=
  let wl := pyLower (window_title.getD "")
  match table.find? (fun p => pyIn (pyLower p.1) wl) with
  | some p => p.2
  | none => []

/-- The `home_apps` list of `update_overlay` (lines 852-857). -/
def home_apps : List String :=
  ["excel", "microsoft excel", "word", "microsoft word", "powerpoint",
   "microsoft powerpoint",
   "outlook", "microsoft outlook", "onenote", "microsoft onenote", "teams",
   "microsoft teams",
   "firefox", "mozilla firefox", "chrome", "google chrome", "edge",
   "microsoft edge", "internet explorer",
   "steam", "epic games", "discord", "spotify", "windows terminal",
   "cmd.exe", "powershell", "windows powershell"]

/-- The test `app_name and app_name in home_apps` (line 900). -/
def isHomeApp (app_name : Option String) : Bool :=
  pyTruthyOpt app_name && home_apps.contains (app_name.getD "")

/-- The three fixed menu items of the home-locked branch
(lines 944-948); their `code` and `summary` are `None`. -/
def menu_items : List (String × String) :=
  [("Settings", "Open the settings menu."),
   ("Reload", "Reload the overlay."),
   ("About", "About this overlay.")]

/-- The home-locked menu rows (lines 943-970): each item passes the
search filter when the search is falsy or the lowercased title starts
with it (the summary is `None`, hence falsy); rows are unpinned and
show `summary or ""`. -/
def menuRows (search : String) : List DisplayRow :=
  (menu_items.filter
      (fun it => search == "" || pyStartsWith (pyLower it.1) search)).map
    fun it => ⟨it.1, "", false⟩

/-- The mutable state of `MovableOverlayWidget` read by
`update_overlay`, together with the loaded stores.  `windowTitle` is
the effective foreground window title (after the own-window adjustment
of lines 829-833). -/
structure OverlayState where
  ctrlPressed : Bool
  homeLocked : Bool
  windowTitle : Option String
  knowledge : List (String × List KnowledgeEntry)
  shortcutsTable : List (String × List ShortcutEntry)
  favorites : Favorites
deriving DecidableEq

/-- The ctrl-pressed (shortcuts) branch of `update_overlay`
(lines 858-898): shortcut rows for the detected app, or the synthetic
no-shortcuts row. -/
def shortcutsBranch (table : List (String × List ShortcutEntry))
    (favsShortcuts : List String) (app_name : Option String)
    (search : String) : List Widget :=
  let shortcuts := get_shortcuts_for_app table app_name
  if shortcuts.isEmpty then [Widget.row noShortcutsRow]
  else (shortcutRows favsShortcuts search shortcuts).map Widget.row

/-- The home-app branch (lines 900-942): when a truthy language is
detected and present in the knowledge table, show its knowledge rows
instead of the home page; otherwise show the app home page built from
the window title. -/
def homeBranch (knowledge : List (String × List KnowledgeEntry))
    (favsKnowledge : List String) (windowTitle : Option String)
    (language : Option String) (search : String) : List Widget :=
  if pyTruthyOpt language then
    match language with
    | some l =>
      match tblLookup l knowledge with
      | some es => (knowledgeRows favsKnowledge search es).map Widget.row
      | none => [Widget.home (windowTitle.getD "")]
    | none => [Widget.home (windowTitle.getD "")]
  else [Widget.home (windowTitle.getD "")]

/-- The knowledge (default) branch (lines 1011-1058): entries for the
truthy detected language when its key is present, else the substring
scan over knowledge keys; rows for a non-empty result, else the
synthetic no-knowledge row. -/
def knowledgeBranch (knowledge : List (String × List KnowledgeEntry))
    (favsKnowledge : List String) (windowTitle : Option String)
    (search : String) : List Widget :=
  let language := detect_language_by_extension windowTitle
  let app_knowledge :=
    if pyTruthyOpt language then
      match language with
      | some l =>
        match tblLookup l knowledge with
        | some es => es
        | none => knowledgeScan knowledge windowTitle
      | none => knowledgeScan knowledge windowTitle
    else knowledgeScan knowledge windowTitle
  if app_knowledge.isEmpty then [Widget.row noKnowledgeRow]
  else (knowledgeRows favsKnowledge search app_knowledge).map Widget.row

/-- The content-resolution part of `MovableOverlayWidget.update_overlay`
(lines 809-1058), as the sequence of widgets added to the content
layout.  The search text is stripped and lowercased first (line 827);
the branch order is: ctrl-pressed shortcuts, home-capable app,
home-locked menu, knowledge.  (The guard clauses that skip the update
entirely — mouse over the window, focus, drag — leave the previous
content unchanged and are outside this function's boundary.) -/
def update_overlay (st : OverlayState) (searchRaw : String) : List Widget :=
  let search := pyLower (pyStrip searchRaw)
  let language := detect_language_by_extension st.windowTitle
  let app_name := detect_app_by_name st.windowTitle
  if st.ctrlPressed then
    shortcutsBranch st.shortcutsTable st.favorites.shortcuts app_name search
  else if isHomeApp app_name then
    homeBranch st.knowledge st.favorites.knowledge st.windowTitle language search
  else if st.homeLocked then
    (menuRows search).map Widget.row
  else
    knowledgeBranch st.knowledge st.favorites.knowledge st.windowTitle search

/-- The claim's reading of the knowledge-mode resolution (claim C7):
look the detected language up in the knowledge store; if absent, fall
back to the case-insensitive substring scan of the store's keys against
the window title (first key in table order wins); if the chosen entry
list is empty, a single synthetic no-knowledge entry. -/
def claimKnowledgeResolve (knowledge : List (String × List KnowledgeEntry))
    (favsKnowledge : List String) (windowTitle : Option String) : List Widget :=
  let chosen : List KnowledgeEntry :=
    match detect_language_by_extension windowTitle with
    | some l =>
      match tblLookup l knowledge with
      | some es => es
      | none => knowledgeScan knowledge windowTitle
    | none => knowledgeScan knowledge windowTitle
  if chosen.isEmpty then [Widget.row noKnowledgeRow]
  else (knowledgeRows favsKnowledge "" chosen).map Widget.row

/-! ## Favorites toggling (`window.py`, `pin_knowledge` / `pin_shortcut`) -/

/-- Python `list.remove(x)`: drop the first occurrence of `x`
(the callers guard membership, so the `ValueError` case cannot arise). -/
def pyRemove (x : String) : List String → List String
  | [] => []
  | a :: as => if a = x then as else a :: pyRemove x as

/-- The shared toggle of `pin_knowledge`/`pin_shortcut` (lines
1132-1146): remove the first occurrence if present, else insert at the
front. -/
def togglePin (t : String) (l : List String) : List String :=
  if l.contains t then pyRemove t l else t :: l

/-- `MovableOverlayWidget.pin_knowledge` (lines 1132-1138), restricted
to its effect on the favorites store (it also persists the store and
refreshes the overlay). -/
def pin_knowledge (favs : Favorites) (title : String) : Favorites :=
  { favs with knowledge := togglePin title favs.knowledge }

/-- `MovableOverlayWidget.pin_shortcut` (lines 1140-1146). -/
def pin_shortcut (favs : Favorites) (shortcut : String) : Favorites :=
  { favs with shortcuts := togglePin shortcut favs.shortcuts }

/-! ## Selection watcher (`window.py`, `_start_cursor_monitor`) -/

/-- The last-seen readings of the monitor loop (lines 1151-1153);
all start as `None`. -/
structure MonitorState where
  lastPos : Option (Int × Int)
  lastSelection : Option String
  lastWindow : Option String
deriving DecidableEq

/-- One tick's readings: cursor position, foreground window title, and
the selected text (`_get_selected_text`, which returns `None` or a
stripped string). -/
structure Reading where
  pos : Int × Int
  windowTitle : String
  selected : Option String
deriving DecidableEq

/-- One iteration of the monitor loop (lines 1154-1197), for a tick that
reaches the comparison (foreground window present and not the overlay
itself): if the selection, the cursor position, or the window title
changed since the last tick, fire `request_explanation` when the
selection is truthy, and record the new readings; otherwise do nothing.
Returns the new state and the text of the fired request, if any. -/
def monitor_tick (st : MonitorState) (r : Reading) :
    MonitorState × Option String :=
  if r.selected ≠ st.lastSelection ∨ some r.pos ≠ st.lastPos
      ∨ some r.windowTitle ≠ st.lastWindow then
    (⟨some r.pos, r.selected, some r.windowTitle⟩,
     if pyTruthyOpt r.selected then r.selected else none)
  else (st, none)

/-! ## Completion cooldown and queue (`ai/completion.py`) -/

/-- `CompletionSystem.completion_cooldown` (0.5 seconds, line 27). -/
def completion_cooldown : ℚ := 1 / 2

/-- The cooldown-relevant state of `CompletionSystem`:
`last_completion_time`, initially `0` (line 26). -/
structure CompState where
  lastCompletionTime : ℚ
deriving DecidableEq

/-- What the body of `_handle_completion_request` observes after passing
the cooldown check: the context analysis or generation raised, the
feature list was empty, or the model call returned (`None` or a
string). -/
inductive HandleOutcome where
  | raised
  | noFeatures
  | modelResult (r : Option String)
deriving DecidableEq

/-- `CompletionSystem._handle_completion_request` (lines 64-98):
drop the request (returning the state unchanged) when the handler runs
less than the cooldown after `last_completion_time`; otherwise process
it, updating `last_completion_time` to the handler's start time only
when the model call returned a truthy completion.  The boolean is
`true` iff the request passed the cooldown check (was accepted). -/
def handle_completion_request (st : CompState) (currentTime : ℚ)
    (outcome : HandleOutcome) : CompState × Bool :=
  if currentTime - st.lastCompletionTime < completion_cooldown then
    (st, false)
  else
    match outcome with
    | .raised => (st, true)
    | .noFeatures => (st, true)
    | .modelResult r =>
      if pyTruthyOpt r then (⟨currentTime⟩, true) else (st, true)

/-- `CompletionSystem.request_completion` (lines 133-148), restricted to
its effect on `completion_queue`: build the request dict and `put` it
at the back of the queue, unconditionally.  Requests are abstracted to
identifiers. -/
def request_completion (queue : List ℕ) (r : ℕ) : List ℕ := queue ++ [r]

/-- An event of the queue system: a `request_completion` call, or one
pass of the `_process_queue` worker loop (lines 53-62), which pops and
handles the head request when the queue is non-empty. -/
inductive QEvent where
  | arrive (r : ℕ)
  | tick
deriving DecidableEq

/-- Effect of one event on the pending queue (handling a popped request
never re-enqueues it). -/
def qstep (queue : List ℕ) : QEvent → List ℕ
  | .arrive r => request_completion queue r
  | .tick => queue.tail

/-- The pending queue after a sequence of events, starting empty. -/
def qrun (evs : List QEvent) : List ℕ := evs.foldl qstep []

/-- The requests submitted in a sequence of events, in order. -/
def arrivalsOf (evs : List QEvent) : List ℕ :=
  evs.filterMap fun e => match e with | .arrive r => some r | .tick => none

/-! ## Model lifecycle (`ai/model_manager.py`) -/

/-- Outcome of one `ModelManager.load_model` run, as seen by the `_load`
closure (lines 97-172): both tokenizer loads raised, the model load
raised, or everything succeeded. -/
inductive LoadOutcome where
  | tokenizerFailed
  | modelLoadFailed
  | success
deriving DecidableEq

/-- The successive values assigned to `_loading_progress` during one
`load_model` call, in program order:
`0` (line 95), `10` (line 100), `30` (line 125, after the tokenizer),
`100` (line 154, after the model); on an exception the handler writes
`0` (line 166); the `finally` block always writes `0` (line 172) —
including after a successful load.  `get_loading_progress` returns the
current value, so a poll observes a prefix-respecting subsequence of
this list. -/
def loadProgressTrace : LoadOutcome → List ℕ
  | .tokenizerFailed => [0, 10, 0, 0]
  | .modelLoadFailed => [0, 10, 30, 0, 0]
  | .success => [0, 10, 30, 100, 0]

/-! ## Completion generation (`ai/model_manager.py`, `get_completion`) -/

/-- The optional context dict passed to `get_completion`: its
`file_extension` and `app_name` fields default to `""` via
`context.get(..., '')`-style access (lines 229-230 use `get` with
default `''`). -/
structure GenContext where
  file_extension : Option String
  app_name : Option String
deriving DecidableEq

/-- Behaviour of the external tokenizer/model call inside the `try`
block: it raised, or the decode produced a string. -/
inductive GenOutcome where
  | raises
  | decoded (s : String)
deriving DecidableEq

/-- Python `s[n:]` (drop the first `n` characters). -/
def pyDrop (s : String) (n : ℕ) : String := ⟨s.data.drop n⟩

/-- The prompt assembled by `get_completion` (lines 227-237): prefix
truthy `file_extension` and `app_name` hints, then wrap in the fixed
instruction template. -/
def buildPrompt (prompt : String) (ctx : Option GenContext) : String :=
  let p :=
    match ctx with
    | none => prompt
    | some c =>
      let fileExt := c.file_extension.getD ""
      let appName := c.app_name.getD ""
      let p1 := if fileExt != "" then "Language: " ++ fileExt ++ "\n" ++ prompt
                else prompt
      if appName != "" then "Application: " ++ appName ++ "\n" ++ p1 else p1
  "Generate a helpful response for the following text:\n" ++ p ++ "\nResponse:"

/-- `ModelManager.get_completion` (lines 220-280): `None` when no model
and tokenizer are loaded; otherwise run the guarded generation, whose
result is the decoded text minus the prompt prefix, stripped —
returned when non-empty, `None` otherwise; every exception is caught
and yields `None`. -/
def get_completion (available : Bool) (prompt : String)
    (ctx : Option GenContext) (outcome : GenOutcome) : Option String :=
  if !available then none
  else
    match outcome with
    | .raises => none
    | .decoded s =>
      let finalPrompt := buildPrompt prompt ctx
      let newText := pyStrip (pyDrop s finalPrompt.length)
      if newText != "" then some newText else none

/-! ## Supporting lemmas -/

theorem findSome?_eq_filter_head? (f : α → Option β) :
    ∀ l : List α,
      l.findSome? f = ((l.filter fun x => (f x).isSome).head?).bind f
  | [] => rfl
  | a :: as => by
    cases h : f a with
    | some b => simp [List.findSome?_cons, List.filter_cons, h]
    | none =>
      simp [List.findSome?_cons, List.filter_cons, h,
        findSome?_eq_filter_head? f as]

/-! ## Claim theorems -/

/-- C1: for every window title, the detected language equals the
extension-table entry of the rightmost `\.[a-z0-9]+` match of the
lowercased title whose form is in `ext_to_lang`; earlier dot-fragments
never override it, and when no match is in the table the language is
none; e.g. `"report.v2.final.py - Editor"` yields `Python`. -/
theorem C1_rightmost_extension :
    (∀ t : Option String,
        detect_language_by_extension t = t.bind rightmostTableExt)
    ∧ detect_language_by_extension (some "report.v2.final.py - Editor")
        = some "Python"
    ∧ detect_language_by_extension (some "notes.txt") = none := by
  refine ⟨?_, by decide, by decide⟩
  intro t
  cases t with
  | none => rfl
  | some s =>
    show (if s = "" then none else _) = rightmostTableExt s
    by_cases hs : s = ""
    · subst hs; rfl
    · rw [if_neg hs, findSome?_eq_filter_head?, rightmostTableExt,
        List.filter_reverse, List.head?_reverse]

/-- C2 counterexample: the home-locked state does not ignore context —
with the title `"Mozilla Firefox"` (a home-capable app) and ctrl not
pressed, `update_overlay` renders the app home page, not the three-item
system menu. -/
theorem C2_counterexample :
    update_overlay
        { ctrlPressed := false, homeLocked := true,
          windowTitle := some "Mozilla Firefox",
          knowledge := [], shortcutsTable := [], favorites := ⟨[], []⟩ } ""
      = [Widget.home "Mozilla Firefox"]
    ∧ update_overlay
        { ctrlPressed := false, homeLocked := true,
          windowTitle := some "Mozilla Firefox",
          knowledge := [], shortcutsTable := [], favorites := ⟨[], []⟩ } ""
      ≠ (menuRows "").map Widget.row := by
  constructor
  · decide
  · decide

/-- C2 amended: in the home-locked state the fixed three-item system
menu (Settings, Reload, About, subject only to search filtering) is
rendered exactly when ctrl is not pressed and the detected app is not
home-capable; the ctrl-pressed shortcuts branch and the home-capable-app
branch pre-empt the menu. -/
theorem C2_menu_amended (st : OverlayState) (searchRaw : String)
    (hl : st.homeLocked = true) (hc : st.ctrlPressed = false)
    (hh : isHomeApp (detect_app_by_name st.windowTitle) = false) :
    update_overlay st searchRaw
      = (menuRows (pyLower (pyStrip searchRaw))).map Widget.row
    ∧ menuRows "" = [⟨"Settings", "", false⟩, ⟨"Reload", "", false⟩,
        ⟨"About", "", false⟩] := by
  refine ⟨?_, by decide⟩
  simp [update_overlay, hl, hc, hh]

theorem C2_menu_amended_witness :
    update_overlay ⟨false, true, none, [], [], ⟨[], []⟩⟩ ""
      = (menuRows (pyLower (pyStrip ""))).map Widget.row
    ∧ menuRows "" = [⟨"Settings", "", false⟩, ⟨"Reload", "", false⟩,
        ⟨"About", "", false⟩] :=
  C2_menu_amended ⟨false, true, none, [], [], ⟨[], []⟩⟩ "" rfl rfl (by decide)

/-- Python `list.remove` is `List.erase`. -/
theorem pyRemove_eq_erase (x : String) :
    ∀ l : List String, pyRemove x l = l.erase x := by
  intro l
  induction l with
  | nil => rfl
  | cons a as ih =>
    by_cases h : a = x
    · simp [pyRemove, h, List.erase_cons]
    · simp [pyRemove, h, List.erase_cons, ih]

theorem togglePin_twice_of_not_mem (t : String) (l : List String)
    (h : t ∉ l) : togglePin t (togglePin t l) = l := by
  have h1 : togglePin t l = t :: l := by
    simp [togglePin, h]
  rw [h1]
  simp [togglePin, pyRemove]

theorem togglePin_twice_perm (t : String) (l : List String)
    (h : l.count t ≤ 1) :
    List.Perm (togglePin t (togglePin t l)) l := by
  by_cases hm : t ∈ l
  · have h1 : togglePin t l = l.erase t := by
      simp [togglePin, hm, pyRemove_eq_erase]
    have hcount : (l.erase t).count t = 0 := by
      rw [List.count_erase_self]
      have : 0 < l.count t := List.count_pos_iff.mpr hm
      omega
    have hnm : t ∉ l.erase t := by
      intro hmem
      have : 0 < (l.erase t).count t := List.count_pos_iff.mpr hmem
      omega
    have h2 : togglePin t (l.erase t) = t :: l.erase t := by
      simp [togglePin, hnm]
    rw [h1, h2]
    exact (List.perm_cons_erase hm).symm
  · rw [togglePin_twice_of_not_mem t l hm]

/-- C3 counterexample: toggling the pin of a title that sits in a
non-head position of the favorites list does not restore the original
ordering — unpin then re-pin moves it to the front. -/
theorem C3_counterexample :
    pin_knowledge (pin_knowledge ⟨["a", "b"], []⟩ "b") "b"
        = ⟨["b", "a"], []⟩
    ∧ pin_knowledge (pin_knowledge ⟨["a", "b"], []⟩ "b") "b"
        ≠ (⟨["a", "b"], []⟩ : Favorites) := by
  constructor
  · decide
  · decide

/-- C3 amended: under the at-most-once invariant, toggling a pin twice
restores the original favorites as a set (the resulting list is a
permutation of the original, for `pin_knowledge` and `pin_shortcut`
alike), and restores the list exactly when the toggled title was not
pinned; a pinned title at a non-head position is moved to the front. -/
theorem C3_toggle_amended (favs : Favorites) (t : String)
    (hk : favs.knowledge.count t ≤ 1) (hs : favs.shortcuts.count t ≤ 1) :
    List.Perm (pin_knowledge (pin_knowledge favs t) t).knowledge
        favs.knowledge
    ∧ List.Perm (pin_shortcut (pin_shortcut favs t) t).shortcuts
        favs.shortcuts
    ∧ (t ∉ favs.knowledge → pin_knowledge (pin_knowledge favs t) t = favs)
    ∧ (t ∉ favs.shortcuts → pin_shortcut (pin_shortcut favs t) t = favs) := by
  refine ⟨togglePin_twice_perm t favs.knowledge hk,
          togglePin_twice_perm t favs.shortcuts hs, ?_, ?_⟩
  · intro hm
    simp [pin_knowledge, togglePin_twice_of_not_mem t favs.knowledge hm]
  · intro hm
    simp [pin_shortcut, togglePin_twice_of_not_mem t favs.shortcuts hm]

theorem C3_toggle_amended_witness :
    List.Perm (pin_knowledge (pin_knowledge ⟨["a", "b"], ["c"]⟩ "b") "b").knowledge
        ["a", "b"]
    ∧ List.Perm (pin_shortcut (pin_shortcut ⟨["a", "b"], ["c"]⟩ "b") "b").shortcuts
        ["c"]
    ∧ ("b" ∉ (["a", "b"] : List String) →
        pin_knowledge (pin_knowledge ⟨["a", "b"], ["c"]⟩ "b") "b" = ⟨["a", "b"], ["c"]⟩)
    ∧ ("b" ∉ (["c"] : List String) →
        pin_shortcut (pin_shortcut ⟨["a", "b"], ["c"]⟩ "b") "b" = ⟨["a", "b"], ["c"]⟩) :=
  C3_toggle_amended ⟨["a", "b"], ["c"]⟩ "b" (by decide) (by decide)

/-- C4 counterexample: the cooldown runs from the last *successful
completion*, not the last accepted request — a first request handled at
time 100 whose model call returns `None` is accepted but does not start
a cooldown, so a second request 0.2 s later (well within the 0.5 s
cooldown) is accepted as well: two requests less than the cooldown
apart, both accepted. -/
theorem C4_counterexample :
    ((502 : ℚ) / 5 - 100 < completion_cooldown)
    ∧ (handle_completion_request ⟨0⟩ 100 (.modelResult none)).2 = true
    ∧ (handle_completion_request
        (handle_completion_request ⟨0⟩ 100 (.modelResult none)).1
        ((502 : ℚ) / 5) (.modelResult none)).2 = true := by
  refine ⟨by norm_num [completion_cooldown], ?_, ?_⟩
  · norm_num [handle_completion_request, completion_cooldown, pyTruthyOpt]
  · norm_num [handle_completion_request, completion_cooldown, pyTruthyOpt]

/-- C4 amended: the cooldown is measured from the handler-invocation
time of the last request whose model call produced a truthy completion
(initially 0).  When a request handled at `t1` passes the cooldown
check and produces a truthy completion, a request handled less than
0.5 s after `t1` is dropped (state unchanged), and one handled at least
0.5 s after `t1` is accepted, whatever its outcome.  A request accepted
with no completion starts no cooldown (see the counterexample). -/
theorem C4_cooldown_amended (st : CompState) (t1 t2 t3 : ℚ)
    (r : Option String) (o2 o3 : HandleOutcome)
    (h1 : completion_cooldown ≤ t1 - st.lastCompletionTime)
    (hr : pyTruthyOpt r = true)
    (h2 : t2 - t1 < completion_cooldown)
    (h3 : completion_cooldown ≤ t3 - t1) :
    (handle_completion_request st t1 (.modelResult r)).2 = true
    ∧ (handle_completion_request st t1 (.modelResult r)).1 = ⟨t1⟩
    ∧ handle_completion_request ⟨t1⟩ t2 o2 = (⟨t1⟩, false)
    ∧ (handle_completion_request ⟨t1⟩ t3 o3).2 = true := by
  have g1 : ¬(t1 - st.lastCompletionTime < completion_cooldown) :=
    not_lt.mpr h1
  have g3 : ¬(t3 - t1 < completion_cooldown) := not_lt.mpr h3
  refine ⟨?_, ?_, ?_, ?_⟩
  · simp [handle_completion_request, g1, hr]
  · simp [handle_completion_request, g1, hr]
  · simp [handle_completion_request, h2]
  · cases o3 with
    | raised => simp [handle_completion_request, g3]
    | noFeatures => simp [handle_completion_request, g3]
    | modelResult r2 =>
      by_cases hr2 : pyTruthyOpt r2 = true
      · simp [handle_completion_request, g3, hr2]
      · simp [handle_completion_request, g3, hr2]

theorem C4_cooldown_amended_witness :
    (handle_completion_request ⟨0⟩ 1 (.modelResult (some "x"))).2 = true
    ∧ (handle_completion_request ⟨0⟩ 1 (.modelResult (some "x"))).1 = ⟨1⟩
    ∧ handle_completion_request ⟨1⟩ ((5 : ℚ) / 4) .raised = (⟨1⟩, false)
    ∧ (handle_completion_request ⟨1⟩ 2 .raised).2 = true :=
  C4_cooldown_amended ⟨0⟩ 1 ((5 : ℚ) / 4) 2 (some "x") .raised .raised
    (by norm_num [completion_cooldown]) (by decide)
    (by norm_num [completion_cooldown]) (by norm_num [completion_cooldown])

/-- C5 counterexample: two rapid `request_completion` calls with no
worker pass in between leave both requests in the queue — the first
(superseded) request is still queued, and the backlog grew. -/
theorem C5_counterexample :
    qrun [.arrive 1, .arrive 2] = [1, 2]
    ∧ (qrun [.arrive 1]).length < (qrun [.arrive 1, .arrive 2]).length
    ∧ 1 ∈ qrun [.arrive 1, .arrive 2] := by
  refine ⟨by decide, by decide, by decide⟩

theorem qrun_suffix_aux :
    ∀ (evs : List QEvent) (q acc : List ℕ),
      q.IsSuffix acc → (evs.foldl qstep q).IsSuffix (acc ++ arrivalsOf evs) := by
  intro evs
  induction evs with
  | nil =>
    intro q acc h
    simpa [arrivalsOf] using h
  | cons e rest ih =>
    intro q acc h
    cases e with
    | arrive r =>
      have h2 : (q ++ [r]).IsSuffix (acc ++ [r]) := by
        obtain ⟨x, hx⟩ := h
        exact ⟨x, by rw [← List.append_assoc, hx]⟩
      have h3 := ih (q ++ [r]) (acc ++ [r]) h2
      simpa [qstep, request_completion, arrivalsOf, List.append_assoc]
        using h3
    | tick =>
      have h2 : q.tail.IsSuffix acc := (List.tail_suffix q).trans h
      have h3 := ih q.tail acc h2
      simpa [qstep, arrivalsOf] using h3

/-- C5 amended: `request_completion` never drops or supersedes — every
submitted request is appended to the completion queue, so the pending
backlog grows by one on each submission and can grow without bound under
rapid successive requests; the worker dequeues only from the front, so
after any event sequence the pending queue is a contiguous suffix of the
submission sequence (requests leave the queue only by being handled,
one at a time, by the single sequential worker loop). -/
theorem C5_queue_amended :
    ∀ (evs : List QEvent) (r : ℕ),
      (qrun evs).IsSuffix (arrivalsOf evs)
      ∧ qrun (evs ++ [.arrive r]) = qrun evs ++ [r]
      ∧ (qrun (evs ++ [.arrive r])).length = (qrun evs).length + 1 := by
  intro evs r
  refine ⟨?_, ?_, ?_⟩
  · have h := qrun_suffix_aux evs [] [] ⟨[], rfl⟩
    simpa [qrun] using h
  · simp [qrun, List.foldl_append, qstep, request_completion]
  · simp [qrun, List.foldl_append, qstep, request_completion]

/-- C6 counterexample: a cursor move alone re-fires the explanation
request with an unchanged non-empty selection — the monitor is not
edge-triggered on the selection: with last readings
`((0,0), selection "foo", window "w")` and a new reading
`((1,0), "w", selection "foo")`, the tick fires `some "foo"` although
the selection equals the previous non-empty reading. -/
theorem C6_counterexample :
    (monitor_tick ⟨some (0, 0), some "foo", some "w"⟩
        ⟨(1, 0), "w", some "foo"⟩).2 = some "foo"
    ∧ (⟨(1, 0), "w", some "foo"⟩ : Reading).selected
        = (⟨some (0, 0), some "foo", some "w"⟩ : MonitorState).lastSelection := by
  refine ⟨by decide, by decide⟩

/-- C6 amended: the monitor fires an explanation request exactly when
the selection is truthy and at least one of selection, cursor position
or window title changed since the last tick — so an unchanged non-empty
selection can re-fire on a cursor move or window change; a tick whose
whole reading equals the previous one never fires, and in particular an
immediately repeated identical reading never produces a duplicate
event. -/
theorem C6_monitor_amended (st : MonitorState) (r : Reading) :
    (monitor_tick (monitor_tick st r).1 r).2 = none
    ∧ ((monitor_tick st r).2 ≠ none →
        pyTruthyOpt r.selected = true
        ∧ (r.selected ≠ st.lastSelection ∨ some r.pos ≠ st.lastPos
            ∨ some r.windowTitle ≠ st.lastWindow))
    ∧ ((monitor_tick st r).2 ≠ none → (monitor_tick st r).2 = r.selected) := by
  by_cases h : r.selected ≠ st.lastSelection ∨ some r.pos ≠ st.lastPos
      ∨ some r.windowTitle ≠ st.lastWindow
  · by_cases ht : pyTruthyOpt r.selected = true
    · refine ⟨?_, fun _ => ⟨ht, h⟩, fun _ => ?_⟩
      · simp [monitor_tick, h]
      · simp [monitor_tick, h, ht]
    · refine ⟨?_, ?_, ?_⟩
      · simp [monitor_tick, h]
      · intro hfire
        exact absurd (by simp [monitor_tick, h, ht]) hfire
      · intro hfire
        exact absurd (by simp [monitor_tick, h, ht]) hfire
  · refine ⟨?_, ?_, ?_⟩
    · simp [monitor_tick, h]
    · intro hfire
      exact absurd (by simp [monitor_tick, h]) hfire
    · intro hfire
      exact absurd (by simp [monitor_tick, h]) hfire

theorem C6_monitor_amended_witness :
    (monitor_tick
        (monitor_tick ⟨none, none, none⟩ ⟨(0, 0), "w", some "x"⟩).1
        ⟨(0, 0), "w", some "x"⟩).2 = none
    ∧ ((monitor_tick ⟨none, none, none⟩ ⟨(0, 0), "w", some "x"⟩).2 ≠ none →
        pyTruthyOpt (Reading.selected ⟨(0, 0), "w", some "x"⟩) = true
        ∧ (Reading.selected ⟨(0, 0), "w", some "x"⟩ ≠ none
            ∨ some ((0, 0) : Int × Int) ≠ none ∨ some "w" ≠ none))
    ∧ ((monitor_tick ⟨none, none, none⟩ ⟨(0, 0), "w", some "x"⟩).2 ≠ none →
        (monitor_tick ⟨none, none, none⟩ ⟨(0, 0), "w", some "x"⟩).2
          = Reading.selected ⟨(0, 0), "w", some "x"⟩) :=
  C6_monitor_amended ⟨none, none, none⟩ ⟨(0, 0), "w", some "x"⟩

/-- A successful `tblLookup` finds a pair of the table. -/
theorem tblLookup_mem {β : Type} (k : String) (v : β) :
    ∀ tbl : List (String × β), tblLookup k tbl = some v → (k, v) ∈ tbl := by
  intro tbl
  induction tbl with
  | nil => intro h; simp [tblLookup] at h
  | cons p rest ih =>
    intro h
    rw [tblLookup] at h
    by_cases hp : p.1 = k
    · rw [if_pos hp] at h
      have hv : p.2 = v := by injection h
      rw [show p = (k, v) from Prod.ext hp hv]
      exact List.mem_cons_self _ _
    · rw [if_neg hp] at h
      exact List.mem_cons_of_mem _ (ih h)

/-- The extension table maps no extension to the empty string, hence the
detected language is never the (falsy) empty string. -/
theorem detect_language_ne_empty (t : Option String) :
    detect_language_by_extension t ≠ some "" := by
  cases t with
  | none => simp [detect_language_by_extension]
  | some s =>
    by_cases hs : s = ""
    · simp [detect_language_by_extension, hs]
    · intro h
      rw [detect_language_by_extension] at h
      rw [if_neg hs] at h
      obtain ⟨m, _, hf⟩ := List.exists_of_findSome?_eq_some h
      have hmem := tblLookup_mem (String.mk m) "" ext_to_lang hf
      have hall : ∀ p ∈ ext_to_lang, p.2 ≠ "" := by decide
      exact hall _ hmem rfl

/-- With an empty search every entry passes, so the knowledge rows are
exactly the pinned-first reordering of the entries. -/
theorem knowledgeRows_empty_search (favs : List String)
    (es : List KnowledgeEntry) :
    (knowledgeRows favs "" es).length = es.length := by
  unfold knowledgeRows
  rw [List.length_map]
  have hfilter :
      ((es.filter fun k => favs.contains k.title)
          ++ es.filter fun k => !favs.contains k.title).filter
        (knowledgePass "") =
      (es.filter fun k => favs.contains k.title)
          ++ es.filter fun k => !favs.contains k.title :=
    List.filter_eq_self.mpr (by intro k _; simp [knowledgePass])
  rw [hfilter]
  exact (List.filter_append_perm _ es).length_eq

/-- C7: in knowledge mode the resolution is: detected-language lookup
into the knowledge store first; on a missing key, the case-insensitive
substring scan of store keys against the window title (first key in
table order); when the chosen list is empty, a single synthetic
no-knowledge entry instead of an empty list — and `update_overlay`
dispatches knowledge mode (ctrl not pressed, no home-capable app, not
home-locked) to exactly this resolution. -/
theorem C7_knowledge_resolution
    (knowledge : List (String × List KnowledgeEntry))
    (favsK : List String) (title : Option String) :
    knowledgeBranch knowledge favsK title ""
      = claimKnowledgeResolve knowledge favsK title
    ∧ knowledgeBranch knowledge favsK title "" ≠ []
    ∧ (∀ st : OverlayState, st.ctrlPressed = false → st.homeLocked = false →
        isHomeApp (detect_app_by_name st.windowTitle) = false →
        update_overlay st ""
          = knowledgeBranch st.knowledge st.favorites.knowledge
              st.windowTitle "") := by
  refine ⟨?_, ?_, ?_⟩
  · cases hL : detect_language_by_extension title with
    | none => simp [knowledgeBranch, claimKnowledgeResolve, hL, pyTruthyOpt]
    | some l =>
      have hne : l ≠ "" := by
        intro hl
        exact detect_language_ne_empty title (hl ▸ hL)
      simp [knowledgeBranch, claimKnowledgeResolve, hL, pyTruthyOpt, hne]
  · rw [knowledgeBranch]
    set ak := if pyTruthyOpt (detect_language_by_extension title) then _
      else knowledgeScan knowledge title with hak
    by_cases he : ak.isEmpty
    · simp [he]
    · simp only [he, if_neg, Bool.false_eq_true, not_false_eq_true]
      intro hmap
      have hlen := knowledgeRows_empty_search favsK ak
      rw [List.map_eq_nil_iff.mp hmap] at hlen
      simp at hlen
      have hnil : ak = [] := List.length_eq_zero.mp hlen.symm
      rw [hnil] at he
      simp at he
  · intro st hc hl hh
    simp only [update_overlay, hc, hl, hh, if_false, Bool.false_eq_true]
    rfl

theorem C7_knowledge_resolution_witness :
    knowledgeBranch [] [] none "" = claimKnowledgeResolve [] [] none
    ∧ knowledgeBranch [] [] none "" ≠ []
    ∧ (∀ st : OverlayState, st.ctrlPressed = false → st.homeLocked = false →
        isHomeApp (detect_app_by_name st.windowTitle) = false →
        update_overlay st ""
          = knowledgeBranch st.knowledge st.favorites.knowledge
              st.windowTitle "") :=
  C7_knowledge_resolution [] [] none

/-- On non-uppercase characters `pyLowerChar` is the identity. -/
theorem pyLowerChar_not_upper (c : Char)
    (h : c ∉ ['A', 'B', 'C', 'D', 'E', 'F', 'G', 'H', 'I', 'J', 'K', 'L',
      'M', 'N', 'O', 'P', 'Q', 'R', 'S', 'T', 'U', 'V', 'W', 'X', 'Y',
      'Z']) :
    pyLowerChar c = c := by
  simp only [List.mem_cons, List.not_mem_nil, or_false, not_or] at h
  obtain ⟨h1, h2, h3, h4, h5, h6, h7, h8, h9, h10, h11, h12, h13, h14,
    h15, h16, h17, h18, h19, h20, h21, h22, h23, h24, h25, h26⟩ := h
  rw [pyLowerChar, if_neg h1, if_neg h2, if_neg h3, if_neg h4, if_neg h5,
    if_neg h6, if_neg h7, if_neg h8, if_neg h9, if_neg h10, if_neg h11,
    if_neg h12, if_neg h13, if_neg h14, if_neg h15, if_neg h16, if_neg h17,
    if_neg h18, if_neg h19, if_neg h20, if_neg h21, if_neg h22, if_neg h23,
    if_neg h24, if_neg h25, if_neg h26]

/-- Lowercasing does not change whitespace-ness. -/
theorem pyIsSpace_lowerChar (c : Char) :
    pyIsSpace (pyLowerChar c) = pyIsSpace c := by
  by_cases h : c ∈ ['A', 'B', 'C', 'D', 'E', 'F', 'G', 'H', 'I', 'J', 'K',
      'L', 'M', 'N', 'O', 'P', 'Q', 'R', 'S', 'T', 'U', 'V', 'W', 'X',
      'Y', 'Z']
  · fin_cases h <;> rfl
  · rw [pyLowerChar_not_upper c h]

/-- `strip` and `lower` commute (on character lists). -/
theorem pyStripL_map_lower (l : List Char) :
    pyStripL (l.map pyLowerChar) = (pyStripL l).map pyLowerChar := by
  have hcomp : pyIsSpace ∘ pyLowerChar = pyIsSpace := funext pyIsSpace_lowerChar
  unfold pyStripL
  rw [List.dropWhile_map, hcomp, ← List.map_reverse, List.dropWhile_map,
    hcomp, ← List.map_reverse]

/-- `strip` and `lower` commute (on strings). -/
theorem pyLower_pyStrip (s : String) :
    pyLower (pyStrip s) = pyStrip (pyLower s) := by
  exact congrArg String.mk (pyStripL_map_lower s.data).symm

/-- Stripping preserves the prefix relation. -/
theorem pyStripL_prefix {a b : List Char} (h : a <+: b) :
    pyStripL a <+: pyStripL b := by
  obtain ⟨t, rfl⟩ := h
  by_cases ha : (a.dropWhile pyIsSpace).isEmpty
  · have ha2 : a.dropWhile pyIsSpace = [] := by simpa using ha
    have h0 : pyStripL a = [] := by simp [pyStripL, ha2]
    rw [h0]
    exact List.nil_prefix
  · unfold pyStripL
    rw [List.dropWhile_append, if_neg ha, List.reverse_append]
    by_cases htw : ((t.reverse).dropWhile pyIsSpace).isEmpty
    · rw [List.dropWhile_append, if_pos htw]
    · rw [List.dropWhile_append, if_neg htw, List.reverse_append,
        List.reverse_reverse]
      have hp : ((a.dropWhile pyIsSpace).reverse.dropWhile pyIsSpace).reverse
          <+: a.dropWhile pyIsSpace := by
        have hs := List.dropWhile_suffix
          (l := (a.dropWhile pyIsSpace).reverse) (p := pyIsSpace)
        have h2 := List.reverse_prefix.mpr hs
        simpa using h2
      exact hp.trans (List.prefix_append _ _)

/-- A shorter search passes wherever a longer one does
(`startswith` anti-monotone in the prefix). -/
theorem pyStartsWith_mono {q1 q2 s : String} (h : q1.data <+: q2.data)
    (hs : pyStartsWith s q2 = true) : pyStartsWith s q1 = true := by
  rw [pyStartsWith, List.isPrefixOf_iff_prefix] at hs ⊢
  exact h.trans hs

theorem eq_empty_of_prefixed {q1 q2 : String} (h : q1.data <+: q2.data)
    (h2 : q2 = "") : q1 = "" := by
  subst h2
  have h3 : q1.data = [] := List.prefix_nil.mp h
  cases q1
  simp_all

theorem knowledgePass_mono {q1 q2 : String} (h : q1.data <+: q2.data)
    (k : KnowledgeEntry) (hp : knowledgePass q2 k = true) :
    knowledgePass q1 k = true := by
  rw [knowledgePass] at hp ⊢
  simp only [Bool.or_eq_true, Bool.and_eq_true, beq_iff_eq, bne_iff_ne]
    at hp ⊢
  rcases hp with (h0 | h1) | h2
  · exact Or.inl (Or.inl (eq_empty_of_prefixed h h0))
  · exact Or.inl (Or.inr (pyStartsWith_mono h h1))
  · exact Or.inr ⟨h2.1, pyStartsWith_mono h h2.2⟩

theorem shortcutPass_mono {q1 q2 : String} (h : q1.data <+: q2.data)
    (s : ShortcutEntry) (hp : shortcutPass q2 s = true) :
    shortcutPass q1 s = true := by
  rw [shortcutPass] at hp ⊢
  simp only [Bool.or_eq_true, Bool.and_eq_true, beq_iff_eq, bne_iff_ne]
    at hp ⊢
  rcases hp with (h0 | h1) | h2
  · exact Or.inl (Or.inl (eq_empty_of_prefixed h h0))
  · exact Or.inl (Or.inr (pyStartsWith_mono h h1))
  · exact Or.inr ⟨h2.1, pyStartsWith_mono h h2.2⟩

theorem widgetRows_map_row (l : List DisplayRow) :
    widgetRows (l.map Widget.row) = l := by
  induction l with
  | nil => rfl
  | cons a as ih => simpa [widgetRows, List.filterMap_cons] using ih

theorem knowledgeRows_mono (favs : List String) {q1 q2 : String}
    (h : q1.data <+: q2.data) (es : List KnowledgeEntry) :
    List.Sublist (knowledgeRows favs q2 es) (knowledgeRows favs q1 es) := by
  unfold knowledgeRows
  exact (List.monotone_filter_right _
    (fun k hk => knowledgePass_mono h k hk)).map _

theorem shortcutRows_mono (favs : List String) {q1 q2 : String}
    (h : q1.data <+: q2.data) (es : List ShortcutEntry) :
    List.Sublist (shortcutRows favs q2 es) (shortcutRows favs q1 es) := by
  unfold shortcutRows
  exact (List.monotone_filter_right _
    (fun s hs => shortcutPass_mono h s hs)).map _

theorem menuRows_mono {q1 q2 : String} (h : q1.data <+: q2.data) :
    List.Sublist (menuRows q2) (menuRows q1) := by
  unfold menuRows
  refine (List.monotone_filter_right _ ?_).map _
  intro it hit
  simp only [Bool.or_eq_true, beq_iff_eq] at hit ⊢
  rcases hit with h0 | h1
  · exact Or.inl (eq_empty_of_prefixed h h0)
  · exact Or.inr (pyStartsWith_mono h h1)

theorem shortcutsBranch_mono (table : List (String × List ShortcutEntry))
    (favsS : List String) (app : Option String) {q1 q2 : String}
    (h : q1.data <+: q2.data) :
    widgetRows (shortcutsBranch table favsS app q2)
      ⊆ widgetRows (shortcutsBranch table favsS app q1) := by
  unfold shortcutsBranch
  by_cases he : (get_shortcuts_for_app table app).isEmpty
  · simp [he]
  · simp only [he, Bool.false_eq_true, if_false]
    rw [widgetRows_map_row, widgetRows_map_row]
    exact (shortcutRows_mono favsS h _).subset

theorem homeBranch_mono (knowledge : List (String × List KnowledgeEntry))
    (favsK : List String) (title : Option String)
    (language : Option String) {q1 q2 : String}
    (h : q1.data <+: q2.data) :
    widgetRows (homeBranch knowledge favsK title language q2)
      ⊆ widgetRows (homeBranch knowledge favsK title language q1) := by
  unfold homeBranch
  by_cases ht : pyTruthyOpt language = true
  · simp only [ht, if_true]
    cases language with
    | none => simp [widgetRows]
    | some l =>
      cases hlook : tblLookup l knowledge with
      | none => simp [hlook, widgetRows]
      | some es =>
        simp only [hlook]
        rw [widgetRows_map_row, widgetRows_map_row]
        exact (knowledgeRows_mono favsK h es).subset
  · simp [ht, widgetRows]

theorem knowledgeBranch_mono (knowledge : List (String × List KnowledgeEntry))
    (favsK : List String) (title : Option String) {q1 q2 : String}
    (h : q1.data <+: q2.data) :
    widgetRows (knowledgeBranch knowledge favsK title q2)
      ⊆ widgetRows (knowledgeBranch knowledge favsK title q1) := by
  unfold knowledgeBranch
  set ak : List KnowledgeEntry :=
    (if pyTruthyOpt (detect_language_by_extension title) = true then
      match detect_language_by_extension title with
      | some l =>
        (match tblLookup l knowledge with
          | some es => es
          | none => knowledgeScan knowledge title)
      | none => knowledgeScan knowledge title
    else knowledgeScan knowledge title) with hak
  by_cases he : ak.isEmpty
  · simp [he]
  · simp only [he, Bool.false_eq_true, if_false]
    rw [widgetRows_map_row, widgetRows_map_row]
    exact (knowledgeRows_mono favsK h ak).subset

/-- With an empty search the knowledge rows carry exactly the entry
titles, as the pinned-first permutation of the entry list. -/
theorem knowledgeRows_empty_names (favs : List String)
    (es : List KnowledgeEntry) :
    List.Perm ((knowledgeRows favs "" es).map DisplayRow.name)
      (es.map KnowledgeEntry.title) := by
  unfold knowledgeRows
  have hfilter :
      ((es.filter fun k => favs.contains k.title)
          ++ es.filter fun k => !favs.contains k.title).filter
        (knowledgePass "") =
      (es.filter fun k => favs.contains k.title)
          ++ es.filter fun k => !favs.contains k.title :=
    List.filter_eq_self.mpr (by intro k _; simp [knowledgePass])
  rw [hfilter, List.map_map]
  have hperm := (List.filter_append_perm
    (fun k => favs.contains k.title) es).map KnowledgeEntry.title
  simpa [Function.comp] using hperm

/-- C8: search filtering is a monotonic narrowing — for a fixed overlay
state, whenever the lowercased `s1` is a prefix of the lowercased `s2`,
the rows rendered for `s2` are a subset of the rows rendered for `s1`
(in every branch the per-entry filter keeps an entry iff its
title/shortcut or truthy summary starts with the stripped, lowercased
search text); the empty search passes every entry, leaving exactly the
pinned-first entry list. -/
theorem C8_search_monotone (st : OverlayState) (s1 s2 : String)
    (favs : List String) (es : List KnowledgeEntry)
    (h : (pyLower s1).data <+: (pyLower s2).data) :
    widgetRows (update_overlay st s2) ⊆ widgetRows (update_overlay st s1)
    ∧ List.Perm ((knowledgeRows favs "" es).map DisplayRow.name)
        (es.map KnowledgeEntry.title) := by
  have hq : (pyLower (pyStrip s1)).data <+: (pyLower (pyStrip s2)).data := by
    rw [pyLower_pyStrip, pyLower_pyStrip]
    exact pyStripL_prefix h
  refine ⟨?_, knowledgeRows_empty_names favs es⟩
  by_cases hcp : st.ctrlPressed = true
  · simp only [update_overlay, hcp, if_true]
    exact shortcutsBranch_mono _ _ _ hq
  · by_cases hha : isHomeApp (detect_app_by_name st.windowTitle) = true
    · simp [update_overlay, hcp, hha]
      exact homeBranch_mono _ _ _ _ hq
    · by_cases hhl : st.homeLocked = true
      · simp [update_overlay, hcp, hha, hhl]
        rw [widgetRows_map_row, widgetRows_map_row]
        exact (menuRows_mono hq).subset
      · simp [update_overlay, hcp, hha, hhl]
        exact knowledgeBranch_mono _ _ _ hq

theorem C8_search_monotone_witness :
    widgetRows (update_overlay ⟨false, false, none, [], [], ⟨[], []⟩⟩ "a")
      ⊆ widgetRows (update_overlay ⟨false, false, none, [], [], ⟨[], []⟩⟩ "")
    ∧ List.Perm ((knowledgeRows ["x"] ""
          [⟨"t", "d", none, "s"⟩]).map DisplayRow.name)
        ([⟨"t", "d", none, "s"⟩].map (KnowledgeEntry.title)) :=
  C8_search_monotone ⟨false, false, none, [], [], ⟨[], []⟩⟩ "" "a"
    ["x"] [⟨"t", "d", none, "s"⟩] ⟨(pyLower "a").data, rfl⟩

/-- C9 counterexample: the progress values of a successful load are not
monotonic over the whole operation — after reaching 100 the `finally`
block resets `_loading_progress` to 0, so the last assigned value is 0,
not 100. -/
theorem C9_counterexample :
    ¬ List.Chain' (· ≤ ·) (loadProgressTrace .success)
    ∧ (loadProgressTrace .success).getLast? = some 0 := by
  constructor
  · show ¬ List.Chain' (· ≤ ·) [0, 10, 30, 100, 0]
    norm_num [List.chain'_cons]
  · decide

/-- C9 amended: during a successful load the progress assignments are
monotonically nondecreasing from 0 up to 100 (0, 10, 30, 100), but the
load's `finally` cleanup then resets the reported progress to 0 — on
every outcome the last assigned value is 0, and a poll after completion
observes 0, not 100. -/
theorem C9_progress_amended :
    List.Chain' (· ≤ ·) ((loadProgressTrace .success).dropLast)
    ∧ ((loadProgressTrace .success).dropLast).getLast? = some 100
    ∧ (loadProgressTrace .success).head? = some 0
    ∧ ∀ o : LoadOutcome, (loadProgressTrace o).getLast? = some 0 := by
  refine ⟨?_, by decide, by decide, ?_⟩
  · show List.Chain' (· ≤ ·) [0, 10, 30, 100]
    norm_num [List.chain'_cons]
  · intro o
    cases o <;> rfl

/-- C10: `get_completion` is total at the model boundary — for every
prompt, context and behaviour of the tokenizer/model call (raising, or
decoding to any string, including whitespace-only suffixes) it returns
either a non-empty string or `None`, and it returns `None` whenever no
model and tokenizer are loaded. -/
theorem C10_get_completion_total (available : Bool) (prompt : String)
    (ctx : Option GenContext) (outcome : GenOutcome) :
    (get_completion available prompt ctx outcome = none
      ∨ ∃ s, get_completion available prompt ctx outcome = some s ∧ s ≠ "")
    ∧ (available = false →
        get_completion available prompt ctx outcome = none) := by
  cases available with
  | false => simp [get_completion]
  | true =>
    refine ⟨?_, by intro h; cases h⟩
    cases outcome with
    | raises => exact Or.inl (by simp [get_completion])
    | decoded s =>
      by_cases hn : pyStrip (pyDrop s (buildPrompt prompt ctx).length) = ""
      · exact Or.inl (by simp [get_completion, hn])
      · exact Or.inr ⟨pyStrip (pyDrop s (buildPrompt prompt ctx).length),
          by simp [get_completion, hn], hn⟩

theorem C10_get_completion_total_witness :
    (get_completion false "p" none .raises = none
      ∨ ∃ s, get_completion false "p" none .raises = some s ∧ s ≠ "")
    ∧ (false = false → get_completion false "p" none .raises = none) :=
  C10_get_completion_total false "p" none .raises

end UltimateOverlay
